import Mathlib

/-!
Verification of the boxplot-with-outliers chart element
(`src/element/boxplot_outliers.rs`).

The numeric code works on IEEE `f64`; every computation the claims touch
(percentile interpolation at 25/50/75, Tukey fences with factor 1.5, and the
concrete samples in the worked examples) is exact dyadic arithmetic, so the
embedding models `f64` values as rationals.  Rust panics (`assert!`, the
`unwrap` on `partial_cmp`, out-of-bounds indexing) are modelled by `Option`:
`none` means the function panicked and never returned a value.
-/

namespace BoxplotSpec

/-- The constant `std::f64::EPSILON` (machine epsilon of `f64`), `2 ^ (-52)`. -/
def f64_EPSILON : ℚ := 1 / 2 ^ 52

/-- Embedding of `BoxplotData` (five-number summary plus outliers). -/
structure BoxplotData where
  minimum : ℚ
  lower_quartile : ℚ
  median : ℚ
  upper_quartile : ℚ
  maximum : ℚ
  outliers : List ℚ
deriving DecidableEq

/-- Embedding of `BoxplotData::percentile_of_sorted`.  Mirrors the source
line by line: the empty-slice assertion, the early return for singleton
slices, the `0 ≤ pct ≤ 100` assertions, the epsilon test against `pct = 100`,
and the linear interpolation `lo + (hi - lo) * d`.  An assertion failure or
an out-of-bounds index (a Rust panic) yields `none`. -/
def percentile_of_sorted (s : List ℚ) (pct : ℚ) : Option ℚ :=
  if s.isEmpty then none
  else if s.length = 1 then s[0]?
  else if ¬ 0 ≤ pct then none
  else if ¬ pct ≤ 100 then none
  else if |pct - 100| < f64_EPSILON then s[s.length - 1]?
  else
    let length : ℚ := (s.length - 1 : ℕ)
    let rank := pct / 100 * length
    let lower_rank := ⌊rank⌋
    let d := rank - lower_rank
    let n := lower_rank.toNat
    match s[n]?, s[n + 1]? with
    | some lo, some hi => some (lo + (hi - lo) * d)
    | _, _ => none

/-- State threaded through the classification loop of `BoxplotData::new`:
the accumulated `outliers` vector and the `minimum`/`maximum` options. -/
structure ScanState where
  outliers : List ℚ
  minimum : Option ℚ
  maximum : Option ℚ
deriving DecidableEq

/-- One iteration of the `for v in values` loop of `BoxplotData::new`:
a value outside the fences is pushed onto `outliers`; otherwise `minimum`
is set if still unset and `maximum` is overwritten. -/
def scanStep (lower_fence upper_fence : ℚ) (st : ScanState) (v : ℚ) : ScanState :=
  if v < lower_fence ∨ upper_fence < v then
    { st with outliers := st.outliers ++ [v] }
  else
    { outliers := st.outliers
      minimum := match st.minimum with
        | none => some v
        | some m => some m
      maximum := some v }

/-- The whole classification loop of `BoxplotData::new`. -/
def scanValues (lower_fence upper_fence : ℚ) (values : List ℚ) : ScanState :=
  values.foldl (scanStep lower_fence upper_fence) ⟨[], none, none⟩

/-- Embedding of `BoxplotData::new`.  The sample is sorted (for NaN-free
input, `sort_unstable_by(partial_cmp)` is an ordinary ascending sort), the
three quartiles are interpolated, the Tukey fences are `Q1 - 1.5*iqr` and
`Q3 + 1.5*iqr`, and a single pass classifies the sorted values.  The final
`assert!(minimum.is_some())` / `assert!(maximum.is_some())` are the last
`match`: a failure yields `none`. -/
def BoxplotData.new (values : List ℚ) : Option BoxplotData :=
  let sorted := values.insertionSort (· ≤ ·)
  match percentile_of_sorted sorted 25, percentile_of_sorted sorted 50,
      percentile_of_sorted sorted 75 with
  | some lower, some median, some upper =>
    let iqr := upper - lower
    let lower_fence := lower - 3 / 2 * iqr
    let upper_fence := upper + 3 / 2 * iqr
    let st := scanValues lower_fence upper_fence sorted
    match st.minimum, st.maximum with
    | some mn, some mx =>
      some { minimum := mn, lower_quartile := lower, median := median,
             upper_quartile := upper, maximum := mx, outliers := st.outliers }
    | _, _ => none
  | _, _, _ => none

/-- The `rank` computed by the non-degenerate branch of
`percentile_of_sorted`: `(pct / 100) * (len - 1)`. -/
def rankOf (s : List ℚ) (pct : ℚ) : ℚ :=
  pct / 100 * ((s.length - 1 : ℕ) : ℚ)

/-- The index `n = lower_rank as usize` of the non-degenerate branch. -/
def idxOf (s : List ℚ) (pct : ℚ) : ℕ :=
  (⌊rankOf s pct⌋).toNat

/-- The interpolated value `lo + (hi - lo) * d` the non-degenerate branch of
`percentile_of_sorted` computes (indexing via `getD`, used only at indices
proved in bounds). -/
def interpAt (s : List ℚ) (pct : ℚ) : ℚ :=
  s.getD (idxOf s pct) 0 +
    (s.getD (idxOf s pct + 1) 0 - s.getD (idxOf s pct) 0) *
      (rankOf s pct - ⌊rankOf s pct⌋)

/-- The in-fence test: the negation of the outlier condition of the loop. -/
def notOutlier (lower_fence upper_fence v : ℚ) : Bool :=
  !decide (v < lower_fence ∨ upper_fence < v)

/-- The sorted copy `BoxplotData.new` works on. -/
def sortedSample (l : List ℚ) : List ℚ := l.insertionSort (· ≤ ·)

/-- The lower Tukey fence `Q1 - 1.5 * iqr` of a sorted sample of length ≥ 2. -/
def lowerFenceOf (s : List ℚ) : ℚ :=
  interpAt s 25 - 3 / 2 * (interpAt s 75 - interpAt s 25)

/-- The upper Tukey fence `Q3 + 1.5 * iqr` of a sorted sample of length ≥ 2. -/
def upperFenceOf (s : List ℚ) : ℚ :=
  interpAt s 75 + 3 / 2 * (interpAt s 75 - interpAt s 25)

/-- The in-fence values of a sorted sample, in order. -/
def inliersOf (s : List ℚ) : List ℚ :=
  s.filter (notOutlier (lowerFenceOf s) (upperFenceOf s))

/-! ### The drawable element -/

/-- Modelled from the spec: the style value type (`ShapeStyle` from
`crate::style`) is an external collaborator (spec §3, §6) — a stroke/fill
descriptor carrying a color, a fill flag and a stroke width. -/
structure ShapeStyle where
  color : ℤ
  filled : Bool
  stroke_width : ℕ
deriving DecidableEq

/-- The style argument a primitive is issued with: either the borrowed
`&self.style` or the bare backend color from
`self.style.color.to_backend_color()`. -/
inductive BackendStyle where
  | shape (s : ShapeStyle)
  | color (c : ℤ)
deriving DecidableEq

/-- A backend primitive call: `draw_line`, `draw_rect` or `draw_circle`
(spec §6), with the arguments the source passes. -/
inductive Primitive where
  | line (p1 p2 : ℤ × ℤ) (paint : BackendStyle)
  | rect (upper_left bottom_right : ℤ × ℤ) (paint : BackendStyle) (filled : Bool)
  | circle (center : ℤ × ℤ) (radius : ℕ) (paint : BackendStyle) (filled : Bool)
deriving DecidableEq

/-- Modelled from the spec: the orientation strategy (`BoxplotOrient` from
`super::boxplot`, whose source is not part of the verified tree) is used by
`draw` only through its `with_offset` capability, which shifts a
backend-space point along the key axis by a floating-point delta (spec
§4.2).  It is kept abstract: every theorem below holds for an arbitrary
orientation. -/
structure Orient where
  with_offset : ℤ × ℤ → ℚ → ℤ × ℤ

/-- Embedding of the `BoxplotOutliers<K, O>` element: configuration plus the
computed summary values (the five numbers and the outliers, narrowed to
render precision in the source). -/
structure BoxplotOutliers (K : Type) where
  style : ShapeStyle
  width : ℕ
  whisker_width : ℚ
  offset : ℚ
  key : K
  values : List ℚ
  outliers : List ℚ

/-- Embedding of the fluent setter `BoxplotOutliers::style` (named
`set_style` here because Lean reserves the name for the field projection). -/
def BoxplotOutliers.set_style {K : Type} (e : BoxplotOutliers K)
    (style : ShapeStyle) : BoxplotOutliers K :=
  { e with style := style }

/-- Embedding of the fluent setter `BoxplotOutliers::width`. -/
def BoxplotOutliers.set_width {K : Type} (e : BoxplotOutliers K)
    (width : ℕ) : BoxplotOutliers K :=
  { e with width := width }

/-- Embedding of the fluent setter `BoxplotOutliers::whisker_width`. -/
def BoxplotOutliers.set_whisker_width {K : Type} (e : BoxplotOutliers K)
    (whisker_width : ℚ) : BoxplotOutliers K :=
  { e with whisker_width := whisker_width }

/-- Embedding of the fluent setter `BoxplotOutliers::offset`. -/
def BoxplotOutliers.set_offset {K : Type} (e : BoxplotOutliers K)
    (offset : ℚ) : BoxplotOutliers K :=
  { e with offset := offset }

/-- The ordered sequence of backend primitives the body of
`Drawable::draw` issues when at least five projected points are supplied
(and the empty sequence otherwise): whisker cap at `points[0]`, whisker
stem `points[0] → points[1]` painted with the bare line color, the
min/max-normalized unfilled rectangle over `start_bar(points[3])` /
`end_bar(points[1])`, the median line at `points[2]`, the stem
`points[3] → points[4]`, the cap at `points[4]`, then one unfilled circle
of radius `(width / 2.0) as u32` per remaining point.  The arguments of
each call are exactly those of the source; the `?`-propagation is factored
into `runDraw`. -/
def drawCalls {K : Type} (O : Orient) (e : BoxplotOutliers K)
    (points : List (ℤ × ℤ)) : List Primitive :=
  match points with
  | p0 :: p1 :: p2 :: p3 :: p4 :: rest =>
    let width : ℚ := (e.width : ℚ)
    let moved := fun (coord : ℤ × ℤ) => O.with_offset coord e.offset
    let start_bar := fun (coord : ℤ × ℤ) => O.with_offset (moved coord) (-width / 2)
    let end_bar := fun (coord : ℤ × ℤ) => O.with_offset (moved coord) (width / 2)
    let start_whisker := fun (coord : ℤ × ℤ) =>
      O.with_offset (moved coord) (-width * e.whisker_width / 2)
    let end_whisker := fun (coord : ℤ × ℤ) =>
      O.with_offset (moved coord) (width * e.whisker_width / 2)
    let corner1 := start_bar p3
    let corner2 := end_bar p1
    let upper_left := (min corner1.1 corner2.1, min corner1.2 corner2.2)
    let bottom_right := (max corner1.1 corner2.1, max corner1.2 corner2.2)
    [Primitive.line (start_whisker p0) (end_whisker p0) (BackendStyle.shape e.style),
     Primitive.line (moved p0) (moved p1) (BackendStyle.color e.style.color),
     Primitive.rect upper_left bottom_right (BackendStyle.shape e.style) false,
     Primitive.line (start_bar p2) (end_bar p2) (BackendStyle.shape e.style),
     Primitive.line (moved p3) (moved p4) (BackendStyle.shape e.style),
     Primitive.line (start_whisker p4) (end_whisker p4) (BackendStyle.shape e.style)]
      ++ rest.map (fun p =>
        Primitive.circle (moved p) (Int.toNat ⌊width / 2⌋)
          (BackendStyle.shape e.style) false)
  | _ => []

/-- Run a sequence of primitive calls against a fallible backend, stopping
at the first failure: the embedding of the `?`-operator chain in `draw`.
Returns the calls actually attempted, in order, together with the error of
the first failing call (if any). -/
def runDraw {ε : Type} (backend : Primitive → Except ε Unit) :
    List Primitive → List Primitive × Option ε
  | [] => ([], none)
  | c :: rest =>
    match backend c with
    | .error e => ([c], some e)
    | .ok _ =>
      let r := runDraw backend rest
      (c :: r.1, r.2)

/-- Embedding of `Drawable::draw` for `BoxplotOutliers`: issue the calls of
`drawCalls` one by one, propagating the first backend failure.  The result
records the attempted calls and `none` for `Ok(())` or `some err` for the
propagated backend error. -/
def BoxplotOutliers.draw {K ε : Type} (e : BoxplotOutliers K) (O : Orient)
    (points : List (ℤ × ℤ)) (backend : Primitive → Except ε Unit) :
    List Primitive × Option ε :=
  runDraw backend (drawCalls O e points)

/-- A trivial orientation used by the concrete witnesses: offsets are ignored. -/
def orientId : Orient := ⟨fun c _ => c⟩

/-- A concrete style used by the concrete witnesses. -/
def blackStyle : ShapeStyle := ⟨0, false, 1⟩

/-- A concrete element used by the concrete witnesses. -/
def sampleElement : BoxplotOutliers Unit :=
  { style := blackStyle, width := 10, whisker_width := 1, offset := 0,
    key := (), values := [7, 81 / 4, 75 / 2, 159 / 4, 41], outliers := [] }

/-- A concrete backend that accepts every primitive, used by witnesses. -/
def okBackend : Primitive → Except ℕ Unit := fun _ => Except.ok ()

/-- A concrete backend that rejects every primitive with error `7`. -/
def failBackend : Primitive → Except ℕ Unit := fun _ => Except.error 7

/-- Five concrete projected points used by witnesses. -/
def fivePoints : List (ℤ × ℤ) := [(0, 0), (0, 1), (0, 2), (0, 3), (0, 4)]

/-! ### The non-degenerate branch of `percentile_of_sorted` -/

lemma idxOf_add_one_lt (s : List ℚ) (pct : ℚ) (h2 : 2 ≤ s.length)
    (h0 : 0 ≤ pct) (h99 : pct ≤ 99) : idxOf s pct + 1 < s.length := by
  have hm1 : (1 : ℚ) ≤ ((s.length - 1 : ℕ) : ℚ) := by
    have : 1 ≤ s.length - 1 := by omega
    exact_mod_cast this
  have hrm : rankOf s pct < ((s.length - 1 : ℕ) : ℚ) := by
    have hp : pct / 100 < 1 := by
      rw [div_lt_one (by norm_num : (0:ℚ) < 100)]; linarith
    calc rankOf s pct = pct / 100 * ((s.length - 1 : ℕ) : ℚ) := rfl
      _ < 1 * ((s.length - 1 : ℕ) : ℚ) := by
          exact mul_lt_mul_of_pos_right hp (by linarith)
      _ = ((s.length - 1 : ℕ) : ℚ) := one_mul _
  have hfl : ⌊rankOf s pct⌋ < ((s.length - 1 : ℕ) : ℤ) := by
    rw [Int.floor_lt]
    exact_mod_cast hrm
  have h0r : 0 ≤ ⌊rankOf s pct⌋ := by
    apply Int.floor_nonneg.mpr
    have : (0:ℚ) ≤ ((s.length - 1 : ℕ) : ℚ) := by positivity
    exact mul_nonneg (by positivity) this
  unfold idxOf
  omega

lemma percentile_eq_interp (s : List ℚ) (pct : ℚ)
    (h2 : 2 ≤ s.length) (h0 : 0 ≤ pct) (h99 : pct ≤ 99) :
    percentile_of_sorted s pct = some (interpAt s pct) := by
  have hne : s.isEmpty = false := by
    cases s with
    | nil => simp at h2
    | cons a t => simp
  have hlen1 : s.length ≠ 1 := by omega
  have heps : ¬ |pct - 100| < f64_EPSILON := by
    rw [abs_sub_comm, abs_of_nonneg (by linarith)]
    unfold f64_EPSILON
    rw [not_lt]
    calc (1 : ℚ) / 2 ^ 52 ≤ 1 := by norm_num
      _ ≤ 100 - pct := by linarith
  have hn1 : idxOf s pct + 1 < s.length := idxOf_add_one_lt s pct h2 h0 h99
  have hn : idxOf s pct < s.length := by omega
  simp only [idxOf, rankOf] at hn hn1
  simp only [percentile_of_sorted, hne, Bool.false_eq_true, if_false, if_neg hlen1,
    if_neg (not_not_intro h0), if_neg (not_not_intro (by linarith : pct ≤ 100)),
    if_neg heps]
  rw [List.getElem?_eq_getElem hn, List.getElem?_eq_getElem hn1]
  simp only [interpAt, idxOf, rankOf, List.getD_eq_getElem _ _ hn,
    List.getD_eq_getElem _ _ hn1]

lemma sorted_getD_mono {s : List ℚ} (hs : s.Sorted (· ≤ ·)) {i j : ℕ}
    (hij : i ≤ j) (hj : j < s.length) : s.getD i 0 ≤ s.getD j 0 := by
  have hi : i < s.length := lt_of_le_of_lt hij hj
  rw [List.getD_eq_getElem _ _ hi, List.getD_eq_getElem _ _ hj]
  have := hs.rel_get_of_le (a := ⟨i, hi⟩) (b := ⟨j, hj⟩) hij
  simpa using this

lemma fract_nonneg_rank (r : ℚ) : 0 ≤ r - ⌊r⌋ := by
  have := Int.floor_le r
  linarith

lemma fract_lt_one_rank (r : ℚ) : r - ⌊r⌋ < 1 := by
  have := Int.lt_floor_add_one r
  push_cast at this
  linarith

lemma lo_le_interpAt {s : List ℚ} (hs : s.Sorted (· ≤ ·)) (pct : ℚ)
    (h2 : 2 ≤ s.length) (h0 : 0 ≤ pct) (h99 : pct ≤ 99) :
    s.getD (idxOf s pct) 0 ≤ interpAt s pct := by
  have hn1 : idxOf s pct + 1 < s.length := idxOf_add_one_lt s pct h2 h0 h99
  have hgap : s.getD (idxOf s pct) 0 ≤ s.getD (idxOf s pct + 1) 0 :=
    sorted_getD_mono hs (Nat.le_succ _) hn1
  have hd : 0 ≤ rankOf s pct - ⌊rankOf s pct⌋ := fract_nonneg_rank _
  unfold interpAt
  nlinarith

lemma interpAt_le_hi {s : List ℚ} (hs : s.Sorted (· ≤ ·)) (pct : ℚ)
    (h2 : 2 ≤ s.length) (h0 : 0 ≤ pct) (h99 : pct ≤ 99) :
    interpAt s pct ≤ s.getD (idxOf s pct + 1) 0 := by
  have hn1 : idxOf s pct + 1 < s.length := idxOf_add_one_lt s pct h2 h0 h99
  have hgap : s.getD (idxOf s pct) 0 ≤ s.getD (idxOf s pct + 1) 0 :=
    sorted_getD_mono hs (Nat.le_succ _) hn1
  have hd : rankOf s pct - ⌊rankOf s pct⌋ < 1 := fract_lt_one_rank _
  unfold interpAt
  nlinarith

lemma rankOf_mono (s : List ℚ) {p₁ p₂ : ℚ} (h : p₁ ≤ p₂) :
    rankOf s p₁ ≤ rankOf s p₂ := by
  unfold rankOf
  have hm : (0:ℚ) ≤ ((s.length - 1 : ℕ) : ℚ) := by positivity
  have : p₁ / 100 ≤ p₂ / 100 := by linarith
  exact mul_le_mul_of_nonneg_right this hm

lemma idxOf_mono (s : List ℚ) {p₁ p₂ : ℚ} (h : p₁ ≤ p₂) :
    idxOf s p₁ ≤ idxOf s p₂ := by
  unfold idxOf
  exact Int.toNat_le_toNat (Int.floor_mono (rankOf_mono s h))

lemma interpAt_mono {s : List ℚ} (hs : s.Sorted (· ≤ ·)) {p₁ p₂ : ℚ}
    (h2 : 2 ≤ s.length) (h0 : 0 ≤ p₁) (h12 : p₁ ≤ p₂) (h99 : p₂ ≤ 99) :
    interpAt s p₁ ≤ interpAt s p₂ := by
  have h0' : (0:ℚ) ≤ p₂ := le_trans h0 h12
  have h99' : p₁ ≤ 99 := le_trans h12 h99
  have hn1 : idxOf s p₁ + 1 < s.length := idxOf_add_one_lt s p₁ h2 h0 h99'
  have hn2 : idxOf s p₂ + 1 < s.length := idxOf_add_one_lt s p₂ h2 h0' h99
  have hmono := idxOf_mono s h12
  rcases Nat.lt_or_ge (idxOf s p₁) (idxOf s p₂) with hlt | hge
  · calc interpAt s p₁ ≤ s.getD (idxOf s p₁ + 1) 0 := interpAt_le_hi hs p₁ h2 h0 h99'
      _ ≤ s.getD (idxOf s p₂) 0 := sorted_getD_mono hs hlt (by omega)
      _ ≤ interpAt s p₂ := lo_le_interpAt hs p₂ h2 h0' h99
  · have heq : idxOf s p₁ = idxOf s p₂ := le_antisymm hmono hge
    have hfl : ⌊rankOf s p₁⌋ = ⌊rankOf s p₂⌋ := by
      have e1 : 0 ≤ ⌊rankOf s p₁⌋ := by
        apply Int.floor_nonneg.mpr
        unfold rankOf
        positivity
      have e2 : 0 ≤ ⌊rankOf s p₂⌋ := by
        apply Int.floor_nonneg.mpr
        unfold rankOf
        positivity
      unfold idxOf at heq
      omega
    have hr : rankOf s p₁ ≤ rankOf s p₂ := rankOf_mono s h12
    have hgap : s.getD (idxOf s p₂) 0 ≤ s.getD (idxOf s p₂ + 1) 0 :=
      sorted_getD_mono hs (Nat.le_succ _) hn2
    unfold interpAt
    rw [heq, hfl]
    nlinarith

/-! ### The classification loop -/

lemma scan_min_some (lf uf : ℚ) (l : List ℚ) {st : ScanState} {m : ℚ}
    (h : st.minimum = some m) :
    (l.foldl (scanStep lf uf) st).minimum = some m := by
  induction l generalizing st with
  | nil => simpa using h
  | cons v t ih =>
    rw [List.foldl_cons]
    apply ih
    unfold scanStep
    by_cases hv : v < lf ∨ uf < v
    · rw [if_pos hv]; exact h
    · rw [if_neg hv]; simp [h]

lemma scan_min_none (lf uf : ℚ) (l : List ℚ) {st : ScanState}
    (h : st.minimum = none) :
    (l.foldl (scanStep lf uf) st).minimum =
      (l.filter (notOutlier lf uf)).head? := by
  induction l generalizing st with
  | nil => simpa using h
  | cons v t ih =>
    rw [List.foldl_cons, List.filter_cons]
    by_cases hv : v < lf ∨ uf < v
    · have hflt : notOutlier lf uf v = false := by
        simp [notOutlier, hv]
      rw [hflt]
      simp only [Bool.false_eq_true, if_false]
      have hmin : (scanStep lf uf st v).minimum = none := by
        unfold scanStep
        rw [if_pos hv]
        exact h
      exact ih hmin
    · have hflt : notOutlier lf uf v = true := by
        simp [notOutlier, hv]
      rw [hflt]
      simp only [if_true]
      rw [List.head?_cons]
      apply scan_min_some
      unfold scanStep
      rw [if_neg hv]
      simp [h]

lemma scan_max (lf uf : ℚ) (l : List ℚ) (st : ScanState) :
    (l.foldl (scanStep lf uf) st).maximum =
      ((l.filter (notOutlier lf uf)).reverse.head?).or st.maximum := by
  induction l generalizing st with
  | nil => simp
  | cons v t ih =>
    rw [List.foldl_cons, List.filter_cons]
    by_cases hv : v < lf ∨ uf < v
    · have hflt : notOutlier lf uf v = false := by
        simp [notOutlier, hv]
      rw [hflt]
      simp only [Bool.false_eq_true, if_false]
      rw [ih]
      have hmax : (scanStep lf uf st v).maximum = st.maximum := by
        unfold scanStep
        rw [if_pos hv]
      rw [hmax]
    · have hflt : notOutlier lf uf v = true := by
        simp [notOutlier, hv]
      rw [hflt]
      simp only [if_true]
      rw [ih]
      have hmax : (scanStep lf uf st v).maximum = some v := by
        unfold scanStep
        rw [if_neg hv]
      rw [hmax, List.reverse_cons]
      have hhead : ∀ (xs : List ℚ) (a : ℚ), (xs ++ [a]).head? = xs.head?.or (some a) := by
        intro xs a
        cases xs <;> simp [Option.or]
      rw [hhead, Option.or_assoc]
      have : (some v).or st.maximum = some v := rfl
      rw [this]

/-! ### Degenerate cases of `percentile_of_sorted` -/

lemma percentile_nil (pct : ℚ) : percentile_of_sorted [] pct = none := by
  simp [percentile_of_sorted]

lemma percentile_singleton (a pct : ℚ) : percentile_of_sorted [a] pct = some a := by
  simp [percentile_of_sorted]

/-! ### Structure of `BoxplotData.new` -/

lemma new_nil : BoxplotData.new [] = none := by
  unfold BoxplotData.new
  simp [percentile_nil]

lemma new_singleton (a : ℚ) : BoxplotData.new [a] = some ⟨a, a, a, a, a, []⟩ := by
  unfold BoxplotData.new
  have hsort : ([a] : List ℚ).insertionSort (· ≤ ·) = [a] := by
    simp [List.insertionSort]
  have hlf : a - 3 / 2 * (a - a) = a := by ring
  have huf : a + 3 / 2 * (a - a) = a := by ring
  have hscan : scanValues a a [a] = ⟨[], some a, some a⟩ := by
    unfold scanValues
    rw [List.foldl_cons, List.foldl_nil]
    unfold scanStep
    rw [if_neg (by simp : ¬ (a < a ∨ a < a))]
  simp only [hsort, percentile_singleton, hlf, huf, hscan]

lemma head_le_reverse_head {F : List ℚ} (hF : F.Sorted (· ≤ ·)) {a b : ℚ}
    (ha : F.head? = some a) (hb : F.reverse.head? = some b) : a ≤ b := by
  cases F with
  | nil => simp at ha
  | cons c t =>
    have hac : c = a := by simpa using ha
    have hbmem : b ∈ c :: t := by
      have hmem : b ∈ (c :: t).reverse := List.mem_of_mem_head? (Option.mem_def.mpr hb)
      rw [List.mem_reverse] at hmem
      exact hmem
    subst hac
    rcases List.mem_cons.mp hbmem with rfl | hbt
    · exact le_refl _
    · exact (List.sorted_cons.mp hF).1 b hbt

lemma scanValues_minimum (lf uf : ℚ) (s : List ℚ) :
    (scanValues lf uf s).minimum = (s.filter (notOutlier lf uf)).head? :=
  scan_min_none lf uf s rfl

lemma scanValues_maximum (lf uf : ℚ) (s : List ℚ) :
    (scanValues lf uf s).maximum = (s.filter (notOutlier lf uf)).reverse.head? := by
  have h := scan_max lf uf s ⟨[], none, none⟩
  rw [scanValues, h]
  cases (s.filter (notOutlier lf uf)).reverse.head? <;> rfl

lemma new_eq_of_two_le (l : List ℚ)
    (h2 : 2 ≤ (sortedSample l).length) :
    BoxplotData.new l =
      match (inliersOf (sortedSample l)).head?,
          (inliersOf (sortedSample l)).reverse.head? with
      | some mn, some mx =>
        some ⟨mn, interpAt (sortedSample l) 25, interpAt (sortedSample l) 50,
          interpAt (sortedSample l) 75, mx,
          (scanValues (lowerFenceOf (sortedSample l)) (upperFenceOf (sortedSample l))
            (sortedSample l)).outliers⟩
      | _, _ => none := by
  unfold BoxplotData.new
  simp only [inliersOf, lowerFenceOf, upperFenceOf, sortedSample] at h2 ⊢
  simp only [percentile_eq_interp _ 25 h2 (by norm_num) (by norm_num),
    percentile_eq_interp _ 50 h2 (by norm_num) (by norm_num),
    percentile_eq_interp _ 75 h2 (by norm_num) (by norm_num)]
  simp only [scanValues_minimum, scanValues_maximum]

lemma sortedSample_sorted (l : List ℚ) : (sortedSample l).Sorted (· ≤ ·) :=
  List.sorted_insertionSort _ l

lemma sortedSample_length (l : List ℚ) : (sortedSample l).length = l.length :=
  (List.perm_insertionSort _ l).length_eq

lemma lowerFenceOf_le_q1 {s : List ℚ} (hs : s.Sorted (· ≤ ·)) (h2 : 2 ≤ s.length) :
    lowerFenceOf s ≤ interpAt s 25 := by
  have hQ : interpAt s 25 ≤ interpAt s 75 :=
    interpAt_mono hs h2 (by norm_num) (by norm_num) (by norm_num)
  unfold lowerFenceOf
  linarith

lemma q3_le_upperFenceOf {s : List ℚ} (hs : s.Sorted (· ≤ ·)) (h2 : 2 ≤ s.length) :
    interpAt s 75 ≤ upperFenceOf s := by
  have hQ : interpAt s 25 ≤ interpAt s 75 :=
    interpAt_mono hs h2 (by norm_num) (by norm_num) (by norm_num)
  unfold upperFenceOf
  linarith

lemma idxOf_q1_succ_le_idxOf_q3 {s : List ℚ} (h3 : 3 ≤ s.length) :
    idxOf s 25 + 1 ≤ idxOf s 75 := by
  have hm2 : (2:ℚ) ≤ ((s.length - 1 : ℕ) : ℚ) := by
    have : 2 ≤ s.length - 1 := by omega
    exact_mod_cast this
  have hgap : rankOf s 25 + 1 ≤ rankOf s 75 := by
    have : rankOf s 75 - rankOf s 25 = ((s.length - 1 : ℕ) : ℚ) / 2 := by
      unfold rankOf; ring
    linarith
  have hfl : ⌊rankOf s 25⌋ + 1 ≤ ⌊rankOf s 75⌋ := by
    rw [Int.le_floor]
    push_cast
    have := Int.floor_le (rankOf s 25)
    linarith
  have h0 : 0 ≤ ⌊rankOf s 25⌋ := by
    apply Int.floor_nonneg.mpr
    unfold rankOf
    positivity
  unfold idxOf
  omega

lemma interpAt_pair_q1 (a b : ℚ) : interpAt [a, b] 25 = a + (b - a) * (1 / 4) := by
  unfold interpAt idxOf rankOf
  norm_num

lemma interpAt_pair_q3 (a b : ℚ) : interpAt [a, b] 75 = a + (b - a) * (3 / 4) := by
  unfold interpAt idxOf rankOf
  norm_num

lemma exists_inlier {s : List ℚ} (hs : s.Sorted (· ≤ ·)) (h2 : 2 ≤ s.length) :
    ∃ x ∈ s, lowerFenceOf s ≤ x ∧ x ≤ upperFenceOf s := by
  rcases Nat.lt_or_ge s.length 3 with hlt | h3
  · -- length exactly 2
    have hlen : s.length = 2 := by omega
    obtain ⟨a, t, rfl⟩ : ∃ a t, s = a :: t := by
      cases s with
      | nil => simp at hlen
      | cons a t => exact ⟨a, t, rfl⟩
    obtain ⟨b, t', rfl⟩ : ∃ b t', t = b :: t' := by
      cases t with
      | nil => simp at hlen
      | cons b t' => exact ⟨b, t', rfl⟩
    obtain rfl : t' = [] := by
      cases t' with
      | nil => rfl
      | cons c u => simp at hlen
    have hab : a ≤ b := by
      have := (List.sorted_cons.mp hs).1
      exact this b (by simp)
    refine ⟨a, by simp, ?_, ?_⟩
    · unfold lowerFenceOf
      rw [interpAt_pair_q1, interpAt_pair_q3]
      linarith
    · unfold upperFenceOf
      rw [interpAt_pair_q1, interpAt_pair_q3]
      linarith
  · -- length at least 3: the sorted value just above Q1 is inside the fences
    have hn1 : idxOf s 25 + 1 < s.length :=
      idxOf_add_one_lt s 25 h2 (by norm_num) (by norm_num)
    have hn3 : idxOf s 75 + 1 < s.length :=
      idxOf_add_one_lt s 75 h2 (by norm_num) (by norm_num)
    have hidx : idxOf s 25 + 1 ≤ idxOf s 75 := idxOf_q1_succ_le_idxOf_q3 h3
    refine ⟨s.getD (idxOf s 25 + 1) 0, ?_, ?_, ?_⟩
    · rw [List.getD_eq_getElem _ _ hn1]
      exact List.getElem_mem _
    · calc lowerFenceOf s ≤ interpAt s 25 := lowerFenceOf_le_q1 hs h2
        _ ≤ s.getD (idxOf s 25 + 1) 0 := interpAt_le_hi hs 25 h2 (by norm_num) (by norm_num)
    · calc s.getD (idxOf s 25 + 1) 0 ≤ s.getD (idxOf s 75) 0 :=
          sorted_getD_mono hs hidx (by omega)
        _ ≤ interpAt s 75 := lo_le_interpAt hs 75 h2 (by norm_num) (by norm_num)
        _ ≤ upperFenceOf s := q3_le_upperFenceOf hs h2

lemma inliersOf_ne_nil {s : List ℚ} (hs : s.Sorted (· ≤ ·)) (h2 : 2 ≤ s.length) :
    inliersOf s ≠ [] := by
  obtain ⟨x, hxs, hxl, hxu⟩ := exists_inlier hs h2
  have hxF : x ∈ inliersOf s := by
    rw [inliersOf, List.mem_filter]
    refine ⟨hxs, ?_⟩
    simp only [notOutlier, Bool.not_eq_true', decide_eq_false_iff_not, not_or, not_lt]
    exact ⟨hxl, hxu⟩
  exact List.ne_nil_of_mem hxF

lemma inliersOf_sorted {s : List ℚ} (hs : s.Sorted (· ≤ ·)) :
    (inliersOf s).Sorted (· ≤ ·) :=
  hs.filter _

lemma exists_cons_of_ne_nil {F : List ℚ} (h : F ≠ []) : ∃ a t, F = a :: t := by
  cases F with
  | nil => exact absurd rfl h
  | cons a t => exact ⟨a, t, rfl⟩

/-- C5: for every non-empty NaN-free sample, the outlier-classification pass in
`BoxplotData::new` sets both `minimum` and `maximum` (the `is_some` assertions
never fail), because at least one value always lies within the Tukey fences. -/
theorem new_min_max_always_set (l : List ℚ) (h : l ≠ []) :
    ∃ q, BoxplotData.new l = some q := by
  rcases Nat.lt_or_ge l.length 2 with hlt | h2
  · obtain ⟨a, rfl⟩ : ∃ a, l = [a] := by
      cases l with
      | nil => exact absurd rfl h
      | cons a t =>
        cases t with
        | nil => exact ⟨a, rfl⟩
        | cons b u => exact absurd hlt (by simp)
    exact ⟨_, new_singleton a⟩
  · have h2s : 2 ≤ (sortedSample l).length := by
      rw [sortedSample_length]; exact h2
    have hs := sortedSample_sorted l
    have hne := inliersOf_ne_nil hs h2s
    rw [new_eq_of_two_le l h2s]
    obtain ⟨mn, t, hF⟩ := exists_cons_of_ne_nil hne
    obtain ⟨mx, t2, hR⟩ := exists_cons_of_ne_nil
      (F := (mn :: t).reverse) (by simp)
    rw [hF, hR, List.head?_cons, List.head?_cons]
    exact ⟨_, rfl⟩

/-- C5 witness at the concrete sample `[42]`. -/
theorem new_min_max_always_set_witness :
    ∃ q, BoxplotData.new [42] = some q :=
  new_min_max_always_set [42] (by simp)

/-- C1 (amended): for every sample on which `BoxplotData::new` returns, the
summary satisfies `lower_quartile ≤ median ≤ upper_quartile` and
`minimum ≤ maximum`.  (The outer inequalities `minimum ≤ lower_quartile` and
`upper_quartile ≤ maximum` of the claim fail, see the counterexample.) -/
theorem new_chain_amended (l : List ℚ) (q : BoxplotData)
    (h : BoxplotData.new l = some q) :
    q.lower_quartile ≤ q.median ∧ q.median ≤ q.upper_quartile ∧
      q.minimum ≤ q.maximum := by
  rcases Nat.lt_or_ge l.length 2 with hlt | h2
  · cases l with
    | nil => rw [new_nil] at h; exact absurd h (by simp)
    | cons a t =>
      cases t with
      | nil =>
        rw [new_singleton] at h
        obtain rfl : (⟨a, a, a, a, a, []⟩ : BoxplotData) = q := Option.some.inj h
        exact ⟨le_refl a, le_refl a, le_refl a⟩
      | cons b u => exact absurd hlt (by simp)
  · have h2s : 2 ≤ (sortedSample l).length := by
      rw [sortedSample_length]; exact h2
    have hs := sortedSample_sorted l
    have hne := inliersOf_ne_nil hs h2s
    rw [new_eq_of_two_le l h2s] at h
    obtain ⟨mn, t, hF⟩ := exists_cons_of_ne_nil hne
    obtain ⟨mx, t2, hR⟩ := exists_cons_of_ne_nil
      (F := (mn :: t).reverse) (by simp)
    rw [hF, hR, List.head?_cons, List.head?_cons] at h
    obtain rfl := Option.some.inj h
    refine ⟨?_, ?_, ?_⟩
    · exact interpAt_mono hs h2s (by norm_num) (by norm_num) (by norm_num)
    · exact interpAt_mono hs h2s (by norm_num) (by norm_num) (by norm_num)
    · exact head_le_reverse_head (inliersOf_sorted hs)
        (by rw [hF, List.head?_cons]) (by rw [hF, hR, List.head?_cons])

/-! ### Concrete evaluation helpers -/

lemma interpAt_eval (s : List ℚ) (pct r : ℚ) (k : ℕ) (lo hi v : ℚ)
    (hr : rankOf s pct = r) (hfl : ⌊r⌋ = (k : ℤ))
    (hlo : s.getD k 0 = lo) (hhi : s.getD (k + 1) 0 = hi)
    (hval : lo + (hi - lo) * (r - (k : ℚ)) = v) :
    interpAt s pct = v := by
  unfold interpAt idxOf
  rw [hr, hfl, Int.toNat_natCast, hlo, hhi, Int.cast_natCast, hval]

lemma new_eval (l s : List ℚ) (q1 q2 q3 lf uf : ℚ) (F : List ℚ)
    (mn mx : ℚ) (outs : List ℚ)
    (hsort : l.insertionSort (· ≤ ·) = s)
    (h2 : 2 ≤ s.length)
    (h25 : interpAt s 25 = q1) (h50 : interpAt s 50 = q2) (h75 : interpAt s 75 = q3)
    (hlf : q1 - 3 / 2 * (q3 - q1) = lf) (huf : q3 + 3 / 2 * (q3 - q1) = uf)
    (hF : s.filter (notOutlier lf uf) = F)
    (hmn : F.head? = some mn) (hmx : F.reverse.head? = some mx)
    (houts : (scanValues lf uf s).outliers = outs) :
    BoxplotData.new l = some ⟨mn, q1, q2, q3, mx, outs⟩ := by
  have hss : sortedSample l = s := by rw [sortedSample, hsort]
  have h2s : 2 ≤ (sortedSample l).length := by rw [hss]; exact h2
  rw [new_eq_of_two_le l h2s, hss]
  unfold inliersOf lowerFenceOf upperFenceOf
  rw [h25, h75, hlf, huf, hF, hmn, hmx, h50, houts]

/-! ### Claims about the statistics engine -/

/-- C2: `BoxplotData::new` applied to the sample `[7,15,36,39,40,41]`
yields `lower_quartile = 20.25`, `median = 37.5`, `upper_quartile = 39.75`,
an empty outlier sequence, `minimum = 7` and `maximum = 41`. -/
theorem new_worked_example :
    BoxplotData.new [7, 15, 36, 39, 40, 41] =
      some ⟨7, 81 / 4, 75 / 2, 159 / 4, 41, []⟩ :=
  new_eval _ [7, 15, 36, 39, 40, 41] (81 / 4) (75 / 2) (159 / 4) (-9) 69
    [7, 15, 36, 39, 40, 41] 7 41 []
    (by norm_num [List.insertionSort, List.orderedInsert])
    (by norm_num)
    (interpAt_eval _ _ (5 / 4) 1 15 36 _ (by unfold rankOf; norm_num) (by norm_num)
      (by norm_num) (by norm_num) (by norm_num))
    (interpAt_eval _ _ (5 / 2) 2 36 39 _ (by unfold rankOf; norm_num) (by norm_num)
      (by norm_num) (by norm_num) (by norm_num))
    (interpAt_eval _ _ (15 / 4) 3 39 40 _ (by unfold rankOf; norm_num) (by norm_num)
      (by norm_num) (by norm_num) (by norm_num))
    (by norm_num) (by norm_num)
    (by norm_num [notOutlier, List.filter])
    (by norm_num) (by norm_num)
    (by norm_num [scanValues, scanStep])

/-- C3 counterexample: appending `1000` to `[7,15,36,39,40,41]` puts `1000`
in `outliers` and keeps `minimum = 7`, `maximum = 41`, but it does change
the quartiles (the percentiles are interpolated over the full sorted sample,
outlier included): `lower_quartile` moves from `20.25` to `25.5`. -/
theorem new_outlier_append_counterexample :
    BoxplotData.new [7, 15, 36, 39, 40, 41, 1000] =
        some ⟨7, 51 / 2, 39, 81 / 2, 41, [1000]⟩ ∧
      BoxplotData.new [7, 15, 36, 39, 40, 41] =
        some ⟨7, 81 / 4, 75 / 2, 159 / 4, 41, []⟩ ∧
      (51 / 2 : ℚ) ≠ 81 / 4 :=
  ⟨new_eval _ [7, 15, 36, 39, 40, 41, 1000] (51 / 2) 39 (81 / 2) 3 63
      [7, 15, 36, 39, 40, 41] 7 41 [1000]
      (by norm_num [List.insertionSort, List.orderedInsert])
      (by norm_num)
      (interpAt_eval _ _ (3 / 2) 1 15 36 _ (by unfold rankOf; norm_num) (by norm_num)
        (by norm_num) (by norm_num) (by norm_num))
      (interpAt_eval _ _ 3 3 39 40 _ (by unfold rankOf; norm_num) (by norm_num)
        (by norm_num) (by norm_num) (by norm_num))
      (interpAt_eval _ _ (9 / 2) 4 40 41 _ (by unfold rankOf; norm_num) (by norm_num)
        (by norm_num) (by norm_num) (by norm_num))
      (by norm_num) (by norm_num)
      (by norm_num [notOutlier, List.filter])
      (by norm_num) (by norm_num)
      (by norm_num [scanValues, scanStep]),
    new_eval _ [7, 15, 36, 39, 40, 41] (81 / 4) (75 / 2) (159 / 4) (-9) 69
      [7, 15, 36, 39, 40, 41] 7 41 []
      (by norm_num [List.insertionSort, List.orderedInsert])
      (by norm_num)
      (interpAt_eval _ _ (5 / 4) 1 15 36 _ (by unfold rankOf; norm_num) (by norm_num)
        (by norm_num) (by norm_num) (by norm_num))
      (interpAt_eval _ _ (5 / 2) 2 36 39 _ (by unfold rankOf; norm_num) (by norm_num)
        (by norm_num) (by norm_num) (by norm_num))
      (interpAt_eval _ _ (15 / 4) 3 39 40 _ (by unfold rankOf; norm_num) (by norm_num)
        (by norm_num) (by norm_num) (by norm_num))
      (by norm_num) (by norm_num)
      (by norm_num [notOutlier, List.filter])
      (by norm_num) (by norm_num)
      (by norm_num [scanValues, scanStep]),
    by norm_num⟩

/-- C3 (amended): appending `1000` to `[7,15,36,39,40,41]` yields a summary
whose outlier sequence is exactly `[1000]` and whose `minimum = 7` and
`maximum = 41` are those of the in-fence values; the quartiles are computed
over the full seven-element sample, so they become `25.5`, `39`, `40.5`. -/
theorem new_outlier_append_amended :
    BoxplotData.new [7, 15, 36, 39, 40, 41, 1000] =
      some ⟨7, 51 / 2, 39, 81 / 2, 41, [1000]⟩ :=
  new_eval _ [7, 15, 36, 39, 40, 41, 1000] (51 / 2) 39 (81 / 2) 3 63
    [7, 15, 36, 39, 40, 41] 7 41 [1000]
    (by norm_num [List.insertionSort, List.orderedInsert])
    (by norm_num)
    (interpAt_eval _ _ (3 / 2) 1 15 36 _ (by unfold rankOf; norm_num) (by norm_num)
      (by norm_num) (by norm_num) (by norm_num))
    (interpAt_eval _ _ 3 3 39 40 _ (by unfold rankOf; norm_num) (by norm_num)
      (by norm_num) (by norm_num) (by norm_num))
    (interpAt_eval _ _ (9 / 2) 4 40 41 _ (by unfold rankOf; norm_num) (by norm_num)
      (by norm_num) (by norm_num) (by norm_num))
    (by norm_num) (by norm_num)
    (by norm_num [notOutlier, List.filter])
    (by norm_num) (by norm_num)
    (by norm_num [scanValues, scanStep])

/-- C1 counterexample: the summary chain fails at both ends.  On `[0,1,1,1]`
the value `0` below `Q1` is an outlier, so `minimum = 1 > 3/4 =
lower_quartile`; on `[0,0,0,1]` the value `1` above `Q3` is an outlier, so
`maximum = 0 < 1/4 = upper_quartile`. -/
theorem new_chain_counterexample :
    (BoxplotData.new [0, 1, 1, 1] = some ⟨1, 3 / 4, 1, 1, 1, [0]⟩ ∧
        ¬ ((1 : ℚ) ≤ 3 / 4)) ∧
      (BoxplotData.new [0, 0, 0, 1] = some ⟨0, 0, 0, 1 / 4, 0, [1]⟩ ∧
        ¬ ((1 / 4 : ℚ) ≤ 0)) :=
  ⟨⟨new_eval _ [0, 1, 1, 1] (3 / 4) 1 1 (3 / 8) (11 / 8) [1, 1, 1] 1 1 [0]
      (by norm_num [List.insertionSort, List.orderedInsert])
      (by norm_num)
      (interpAt_eval _ _ (3 / 4) 0 0 1 _ (by unfold rankOf; norm_num) (by norm_num)
        (by norm_num) (by norm_num) (by norm_num))
      (interpAt_eval _ _ (3 / 2) 1 1 1 _ (by unfold rankOf; norm_num) (by norm_num)
        (by norm_num) (by norm_num) (by norm_num))
      (interpAt_eval _ _ (9 / 4) 2 1 1 _ (by unfold rankOf; norm_num) (by norm_num)
        (by norm_num) (by norm_num) (by norm_num))
      (by norm_num) (by norm_num)
      (by norm_num [notOutlier, List.filter])
      (by norm_num) (by norm_num)
      (by norm_num [scanValues, scanStep]),
    by norm_num⟩,
    ⟨new_eval _ [0, 0, 0, 1] 0 0 (1 / 4) (-3 / 8) (5 / 8) [0, 0, 0] 0 0 [1]
      (by norm_num [List.insertionSort, List.orderedInsert])
      (by norm_num)
      (interpAt_eval _ _ (3 / 4) 0 0 0 _ (by unfold rankOf; norm_num) (by norm_num)
        (by norm_num) (by norm_num) (by norm_num))
      (interpAt_eval _ _ (3 / 2) 1 0 0 _ (by unfold rankOf; norm_num) (by norm_num)
        (by norm_num) (by norm_num) (by norm_num))
      (interpAt_eval _ _ (9 / 4) 2 0 1 _ (by unfold rankOf; norm_num) (by norm_num)
        (by norm_num) (by norm_num) (by norm_num))
      (by norm_num) (by norm_num)
      (by norm_num [notOutlier, List.filter])
      (by norm_num) (by norm_num)
      (by norm_num [scanValues, scanStep]),
    by norm_num⟩⟩

/-- C1 witness at the concrete sample `[1,2,3]`, whose summary is
`⟨1, 3/2, 2, 5/2, 3, []⟩`. -/
theorem new_chain_amended_witness :
    (⟨1, 3 / 2, 2, 5 / 2, 3, []⟩ : BoxplotData).lower_quartile ≤
        (⟨1, 3 / 2, 2, 5 / 2, 3, []⟩ : BoxplotData).median ∧
      (⟨1, 3 / 2, 2, 5 / 2, 3, []⟩ : BoxplotData).median ≤
        (⟨1, 3 / 2, 2, 5 / 2, 3, []⟩ : BoxplotData).upper_quartile ∧
      (⟨1, 3 / 2, 2, 5 / 2, 3, []⟩ : BoxplotData).minimum ≤
        (⟨1, 3 / 2, 2, 5 / 2, 3, []⟩ : BoxplotData).maximum :=
  new_chain_amended [1, 2, 3] ⟨1, 3 / 2, 2, 5 / 2, 3, []⟩
    (new_eval _ [1, 2, 3] (3 / 2) 2 (5 / 2) 0 4 [1, 2, 3] 1 3 []
      (by norm_num [List.insertionSort, List.orderedInsert])
      (by norm_num)
      (interpAt_eval _ _ (1 / 2) 0 1 2 _ (by unfold rankOf; norm_num) (by norm_num)
        (by norm_num) (by norm_num) (by norm_num))
      (interpAt_eval _ _ 1 1 2 3 _ (by unfold rankOf; norm_num) (by norm_num)
        (by norm_num) (by norm_num) (by norm_num))
      (interpAt_eval _ _ (3 / 2) 1 2 3 _ (by unfold rankOf; norm_num) (by norm_num)
        (by norm_num) (by norm_num) (by norm_num))
      (by norm_num) (by norm_num)
      (by norm_num [notOutlier, List.filter])
      (by norm_num) (by norm_num)
      (by norm_num [scanValues, scanStep]))

/-- C4 counterexample: on a singleton slice, `percentile_of_sorted` returns
its element before checking the `0 ≤ pct ≤ 100` assertions, so an
out-of-range `pct` does not fail fast. -/
theorem percentile_singleton_ignores_pct :
    percentile_of_sorted [5] 200 = some 5 ∧ ¬ ((200 : ℚ) ≤ 100) :=
  ⟨percentile_singleton 5 200, by norm_num⟩

/-- C4 (amended): on every sorted slice of length at least two,
`percentile_of_sorted` with `pct` outside `[0,100]` hits an assertion
(panics) and never returns a value; singleton slices return their element
regardless of `pct`. -/
theorem percentile_out_of_range_none (s : List ℚ) (pct : ℚ)
    (h2 : 2 ≤ s.length) (h : pct < 0 ∨ 100 < pct) :
    percentile_of_sorted s pct = none := by
  have hne : s.isEmpty = false := by
    cases s with
    | nil => simp at h2
    | cons a t => simp
  have hlen1 : s.length ≠ 1 := by omega
  simp only [percentile_of_sorted, hne, Bool.false_eq_true, if_false, if_neg hlen1]
  rcases h with h | h
  · rw [if_pos (not_le.mpr h)]
  · rw [if_neg (not_not_intro (by linarith : (0:ℚ) ≤ pct)), if_pos (not_le.mpr h)]

/-- C4 witness at the concrete slice `[1,2]` and `pct = 101`. -/
theorem percentile_out_of_range_none_witness :
    percentile_of_sorted [1, 2] 101 = none :=
  percentile_out_of_range_none [1, 2] 101 (by simp) (Or.inr (by norm_num))

/-- C6: `BoxplotData::new` produces an identical summary on every
permutation of the sample (the sample is sorted internally). -/
theorem new_perm_invariant (l l' : List ℚ) (h : l.Perm l') :
    BoxplotData.new l = BoxplotData.new l' := by
  have hsort : l.insertionSort (· ≤ ·) = l'.insertionSort (· ≤ ·) :=
    List.eq_of_perm_of_sorted
      (((List.perm_insertionSort _ l).trans h).trans
        (List.perm_insertionSort _ l').symm)
      (List.sorted_insertionSort _ l) (List.sorted_insertionSort _ l')
  unfold BoxplotData.new
  rw [hsort]

/-- C6 witness at the concrete permutation `[1,2] ~ [2,1]`. -/
theorem new_perm_invariant_witness :
    BoxplotData.new [1, 2] = BoxplotData.new [2, 1] :=
  new_perm_invariant [1, 2] [2, 1] (List.Perm.swap 2 1 [])

/-! ### Claims about the draw routine -/

lemma runDraw_ok {ε : Type} (backend : Primitive → Except ε Unit)
    (hb : ∀ c, backend c = Except.ok ()) (cs : List Primitive) :
    runDraw backend cs = (cs, none) := by
  induction cs with
  | nil => rfl
  | cons c rest ih =>
    rw [runDraw, hb c]
    simp [ih]

lemma runDraw_error {ε : Type} (backend : Primitive → Except ε Unit)
    (cs tr : List Primitive) (err : ε)
    (h : runDraw backend cs = (tr, some err)) :
    ∃ k c, cs[k]? = some c ∧ backend c = Except.error err ∧
      tr = cs.take (k + 1) ∧
      ∀ j c', j < k → cs[j]? = some c' → backend c' = Except.ok () := by
  induction cs generalizing tr with
  | nil => simp [runDraw] at h
  | cons c rest ih =>
    rw [runDraw] at h
    cases hb : backend c with
    | error e =>
      rw [hb] at h
      injection h with htr herr
      obtain rfl : e = err := Option.some.inj herr
      refine ⟨0, c, by simp, hb, htr.symm, ?_⟩
      intro j c' hj
      exact absurd hj (by omega)
    | ok u =>
      rw [hb] at h
      cases hrest : runDraw backend rest with
      | mk tr' res' =>
        rw [hrest] at h
        injection h with htr herr
        change c :: tr' = tr at htr
        change res' = some err at herr
        obtain ⟨k, c', hk, hbc, htr', hprev⟩ := ih tr' (by rw [hrest, herr])
        refine ⟨k + 1, c', by simpa using hk, hbc, ?_, ?_⟩
        · rw [← htr, htr', List.take_succ_cons]
        · intro j c'' hj hj'
          cases j with
          | zero =>
            rw [List.getElem?_cons_zero] at hj'
            obtain rfl : c = c'' := Option.some.inj hj'
            cases u
            exact hb
          | succ j' =>
            exact hprev j' c'' (by omega) (by simpa using hj')

/-- C9: when fewer than five projected points are supplied, `draw` performs
zero backend calls and reports success. -/
theorem draw_too_few_points {K ε : Type} (O : Orient) (e : BoxplotOutliers K)
    (points : List (ℤ × ℤ)) (backend : Primitive → Except ε Unit)
    (h : points.length < 5) :
    e.draw O points backend = ([], none) := by
  have hc : drawCalls O e points = [] := by
    rcases points with _ | ⟨a, _ | ⟨b, _ | ⟨c, _ | ⟨d, _ | ⟨f, rest⟩⟩⟩⟩⟩
    · rfl
    · rfl
    · rfl
    · rfl
    · rfl
    · exact absurd h (by simp)
  rw [BoxplotOutliers.draw, hc]
  rfl

/-- C9 witness at one concrete projected point. -/
theorem draw_too_few_points_witness :
    sampleElement.draw orientId [(0, 0)] okBackend = ([], none) :=
  draw_too_few_points orientId sampleElement [(0, 0)] okBackend (by simp)

/-- C7: with at least five projected points and a backend that accepts
every call, `draw` issues exactly, and in this order: the lower whisker cap
at `points[0]`, the lower whisker stem `points[0] → points[1]` painted with
the bare line color, the unfilled rectangle over `start_bar(points[3])` /
`end_bar(points[1])` normalized to upper-left/bottom-right, the median line
at `points[2]`, the upper whisker stem `points[3] → points[4]`, the upper
whisker cap at `points[4]`, and one unfilled circle of radius `width/2`
(integer-truncated) per point beyond index 4, all shifted by the offset. -/
theorem draw_sequence_order {K ε : Type} (O : Orient) (e : BoxplotOutliers K)
    (p0 p1 p2 p3 p4 : ℤ × ℤ) (rest : List (ℤ × ℤ))
    (backend : Primitive → Except ε Unit)
    (hb : ∀ c, backend c = Except.ok ()) :
    e.draw O (p0 :: p1 :: p2 :: p3 :: p4 :: rest) backend =
      ([Primitive.line
          (O.with_offset (O.with_offset p0 e.offset) (-(e.width : ℚ) * e.whisker_width / 2))
          (O.with_offset (O.with_offset p0 e.offset) ((e.width : ℚ) * e.whisker_width / 2))
          (BackendStyle.shape e.style),
        Primitive.line (O.with_offset p0 e.offset) (O.with_offset p1 e.offset)
          (BackendStyle.color e.style.color),
        Primitive.rect
          (min (O.with_offset (O.with_offset p3 e.offset) (-(e.width : ℚ) / 2)).1
              (O.with_offset (O.with_offset p1 e.offset) ((e.width : ℚ) / 2)).1,
            min (O.with_offset (O.with_offset p3 e.offset) (-(e.width : ℚ) / 2)).2
              (O.with_offset (O.with_offset p1 e.offset) ((e.width : ℚ) / 2)).2)
          (max (O.with_offset (O.with_offset p3 e.offset) (-(e.width : ℚ) / 2)).1
              (O.with_offset (O.with_offset p1 e.offset) ((e.width : ℚ) / 2)).1,
            max (O.with_offset (O.with_offset p3 e.offset) (-(e.width : ℚ) / 2)).2
              (O.with_offset (O.with_offset p1 e.offset) ((e.width : ℚ) / 2)).2)
          (BackendStyle.shape e.style) false,
        Primitive.line
          (O.with_offset (O.with_offset p2 e.offset) (-(e.width : ℚ) / 2))
          (O.with_offset (O.with_offset p2 e.offset) ((e.width : ℚ) / 2))
          (BackendStyle.shape e.style),
        Primitive.line (O.with_offset p3 e.offset) (O.with_offset p4 e.offset)
          (BackendStyle.shape e.style),
        Primitive.line
          (O.with_offset (O.with_offset p4 e.offset) (-(e.width : ℚ) * e.whisker_width / 2))
          (O.with_offset (O.with_offset p4 e.offset) ((e.width : ℚ) * e.whisker_width / 2))
          (BackendStyle.shape e.style)]
        ++ rest.map (fun p =>
            Primitive.circle (O.with_offset p e.offset)
              (Int.toNat ⌊(e.width : ℚ) / 2⌋) (BackendStyle.shape e.style) false),
        none) := by
  rw [BoxplotOutliers.draw, runDraw_ok backend hb]
  rfl

/-- C7 witness at the identity orientation, the sample element and five
concrete points. -/
theorem draw_sequence_order_witness :
    (∀ c, okBackend c = Except.ok ()) ∧
      sampleElement.draw orientId fivePoints okBackend =
        ([Primitive.line (0, 0) (0, 0) (BackendStyle.shape blackStyle),
          Primitive.line (0, 0) (0, 1) (BackendStyle.color 0),
          Primitive.rect (0, 1) (0, 3) (BackendStyle.shape blackStyle) false,
          Primitive.line (0, 2) (0, 2) (BackendStyle.shape blackStyle),
          Primitive.line (0, 3) (0, 4) (BackendStyle.shape blackStyle),
          Primitive.line (0, 4) (0, 4) (BackendStyle.shape blackStyle)], none) :=
  ⟨fun _ => rfl,
    (draw_sequence_order orientId sampleElement (0, 0) (0, 1) (0, 2) (0, 3) (0, 4)
        [] okBackend (fun _ => rfl)).trans (by rfl)⟩

/-- C8: if a backend call inside `draw` fails, the attempted calls are
exactly the prefix of the drawing sequence up to and including the failing
call, every earlier call succeeded, and the backend's error is the one
reported; no later primitive is attempted. -/
theorem draw_fail_fast {K ε : Type} (O : Orient) (e : BoxplotOutliers K)
    (points : List (ℤ × ℤ)) (backend : Primitive → Except ε Unit)
    (tr : List Primitive) (err : ε)
    (h : e.draw O points backend = (tr, some err)) :
    ∃ k c, (drawCalls O e points)[k]? = some c ∧
      backend c = Except.error err ∧
      tr = (drawCalls O e points).take (k + 1) ∧
      ∀ j c', j < k → (drawCalls O e points)[j]? = some c' →
        backend c' = Except.ok () :=
  runDraw_error backend _ tr err h

/-- C8 witness: a backend whose first call fails with error `7`. -/
theorem draw_fail_fast_witness :
    ∃ k c, (drawCalls orientId sampleElement fivePoints)[k]? = some c ∧
      failBackend c = Except.error 7 ∧
      [Primitive.line (0, 0) (0, 0) (BackendStyle.shape blackStyle)] =
        (drawCalls orientId sampleElement fivePoints).take (k + 1) ∧
      ∀ j c', j < k → (drawCalls orientId sampleElement fivePoints)[j]? = some c' →
        failBackend c' = Except.ok () :=
  draw_fail_fast orientId sampleElement fivePoints failBackend
    [Primitive.line (0, 0) (0, 0) (BackendStyle.shape blackStyle)] 7 rfl

/-- C10: each fluent setter (`style`, `width`, `whisker_width`, `offset`)
changes only its own configuration field: the key, values, outliers and the
three other configuration fields of the returned element equal those of the
original. -/
theorem setters_change_only_their_field {K : Type} (e : BoxplotOutliers K)
    (s : ShapeStyle) (w : ℕ) (ww off : ℚ) :
    ((e.set_style s).width = e.width ∧
      (e.set_style s).whisker_width = e.whisker_width ∧
      (e.set_style s).offset = e.offset ∧ (e.set_style s).key = e.key ∧
      (e.set_style s).values = e.values ∧
      (e.set_style s).outliers = e.outliers) ∧
    ((e.set_width w).style = e.style ∧
      (e.set_width w).whisker_width = e.whisker_width ∧
      (e.set_width w).offset = e.offset ∧ (e.set_width w).key = e.key ∧
      (e.set_width w).values = e.values ∧
      (e.set_width w).outliers = e.outliers) ∧
    ((e.set_whisker_width ww).style = e.style ∧
      (e.set_whisker_width ww).width = e.width ∧
      (e.set_whisker_width ww).offset = e.offset ∧
      (e.set_whisker_width ww).key = e.key ∧
      (e.set_whisker_width ww).values = e.values ∧
      (e.set_whisker_width ww).outliers = e.outliers) ∧
    ((e.set_offset off).style = e.style ∧
      (e.set_offset off).width = e.width ∧
      (e.set_offset off).whisker_width = e.whisker_width ∧
      (e.set_offset off).key = e.key ∧
      (e.set_offset off).values = e.values ∧
      (e.set_offset off).outliers = e.outliers) :=
  ⟨⟨rfl, rfl, rfl, rfl, rfl, rfl⟩, ⟨rfl, rfl, rfl, rfl, rfl, rfl⟩,
    ⟨rfl, rfl, rfl, rfl, rfl, rfl⟩, ⟨rfl, rfl, rfl, rfl, rfl, rfl⟩⟩

end BoxplotSpec
